import Mathlib

/-! Shallow embedding of the force-plate analysis tool `main_KENKYU1.py`
(CSV normalisation, LMJ / throwing event detection, window metrics and
session accumulation), together with theorems settling the specification
claims. Force and time samples are modelled as exact rationals; the
floating-point arithmetic of the source is modelled exactly over ℚ,
with the (irrational) standard-deviation-based contact threshold
expressed over ℝ in theorem statements.
-/

namespace Kenkyu

/-! Parameter definitions (source lines 41-44). -/

def SAMPLING_RATE : ℚ := 1000
def FORCE_THRESHOLD_N : ℚ := 10
def BASELINE_PERIOD_S : ℚ := 1
def FOOT_CONTACT_SD_FACTOR : ℚ := 5

/-! Numeric helpers. -/

/-- Rounding to 4 decimal places: models the `f"{t:.4f}"` formatting of a
time value followed by `float(...)` parsing in `choose_index_dialog`
(source lines 323 and 334). Ties round half-up in this model. -/
def round4 (q : ℚ) : ℚ := (round (q * 10000) : ℤ) / 10000

/-- Rounding to 2 decimal places: models Python `round(x, 2)` used on the
peak force and impulse (source lines 260-261). Ties round half-up in this
model. -/
def round2 (q : ℚ) : ℚ := (round (q * 100) : ℤ) / 100

/-- Mean of a list of samples: models `pandas.Series.mean()`
(source line 231). -/
def listMean (xs : List ℚ) : ℚ := xs.sum / (xs.length : ℚ)

/-- Sample variance with the `ddof = 1` convention (divide by N−1), the
square of `pandas.Series.std()` (source line 232). -/
def sampleVar (xs : List ℚ) : ℚ :=
  (xs.map (fun x => (x - listMean xs) ^ 2)).sum / ((xs.length : ℚ) - 1)

/-- Decides `contact_threshold < x` where
`contact_threshold = m + 5·√v` (source line 233), encoded over ℚ by
squaring: for `v ≥ 0`, `m + 5·√v < x ↔ m < x ∧ 25·v < (x − m)²`. -/
def exceedsContactB (m v x : ℚ) : Bool :=
  decide (m < x ∧ 25 * v < (x - m) ^ 2)

/-- First index of the list satisfying `p`: models `np.where(cond)[0][0]`
after the emptiness check (source lines 236-242). -/
def findFirstIdx (p : ℚ → Bool) : List ℚ → Option ℕ
  | [] => none
  | x :: xs => if p x then some 0 else (findFirstIdx p xs).map (· + 1)

/-! Event detection. -/

/-- All row indices whose absolute force exceeds `FORCE_THRESHOLD_N`:
models `df.index[force > FORCE_THRESHOLD_N]` on the rectified channel
(source line 192) and `np.where(axis_force_abs > FORCE_THRESHOLD_N)[0]`
(source line 218). -/
def startCandidates (force : List ℚ) : List ℕ :=
  (List.range force.length).filter (fun i => decide (FORCE_THRESHOLD_N < |force.getD i 0|))

/-- Outcome of `analyze_lmj`: either the informational "no window found"
message or a detected window. -/
inductive LmjResult
  | noWindow
  | window (s e : ℕ)
deriving DecidableEq

/-- LMJ analysis (source lines 183-202): candidates are all rows whose
rectified `Force.Fy.1` exceeds the threshold; the window is the first and
last candidate. -/
def analyze_lmj (force : List ℚ) : LmjResult :=
  let candidates := startCandidates force
  if candidates.isEmpty then .noWindow
  else .window (candidates.headD 0) (candidates.getLastD 0)

/-- The list of candidate times shown in the disambiguation combobox,
each formatted to 4 decimal places (source line 323). -/
def dialogTimes (timeCol : List ℚ) (indices : List ℕ) : List ℚ :=
  indices.map (fun i => round4 (timeCol.getD i 0))

/-- Whether the start-point dialog is shown, and with which candidate
times: `none` when a single candidate is used silently (source
lines 313-314), otherwise the presented times list (source lines 316-328). -/
def dialogPrompt (timeCol : List ℚ) (indices : List ℕ) : Option (List ℚ) :=
  if indices.length = 1 then none else some (dialogTimes timeCol indices)

/-- Maps an operator-chosen time value back to the first row index whose
`Time` lies within `1e-9` of it: models
`df.index[abs(df['Time'] - chosen) < 1e-9][0]` (source line 336). -/
def timeToIndex (timeCol : List ℚ) (t : ℚ) : Option ℕ :=
  (List.range timeCol.length).find? (fun j => decide (|timeCol.getD j 0 - t| < 1 / 1000000000))

/-- Outcome of `choose_index_dialog`: a resolved row index, a user
cancellation, or the IndexError raised when no row matches the chosen
time (source line 336, `[0]` on an empty index). -/
inductive DialogResult
  | chosen (i : ℕ)
  | cancelled
  | noMatch
deriving DecidableEq

/-- `choose_index_dialog` (source lines 311-351): a single candidate is
returned without any prompt; otherwise the operator (`pick`) is shown the
4-decimal candidate times and returns one of them or cancels, and a chosen
time is mapped back to a row index by the `1e-9` tolerance match. -/
def choose_index_dialog (timeCol : List ℚ) (indices : List ℕ)
    (pick : List ℚ → Option ℚ) : DialogResult :=
  if indices.length = 1 then .chosen (indices.headD 0)
  else
    match pick (dialogTimes timeCol indices) with
    | none => .cancelled
    | some t =>
      match timeToIndex timeCol t with
      | some j => .chosen j
      | none => .noMatch

/-- Number of baseline rows: `int(BASELINE_PERIOD_S * SAMPLING_RATE)`
(source line 229). -/
def baseline_end_frame : ℕ := 1000

/-- Outcome of `analyze_throwing`: no window (start or foot contact not
found), user cancellation, the IndexError crash of the time lookup, or a
detected window. -/
inductive ThrowResult
  | noWindow
  | cancelled
  | crashed
  | window (s e : ℕ)
deriving DecidableEq

/-- Throwing analysis (source lines 204-244): start candidates from the
rectified axis-foot channel, operator disambiguation, then foot contact as
the first raw lead-foot sample at or after the start exceeding
`baseline_mean + 5 · baseline_sd` of the first `baseline_end_frame` rows. -/
def analyze_throwing (axisForce leadForce timeCol : List ℚ)
    (pick : List ℚ → Option ℚ) : ThrowResult :=
  let start_candidates := startCandidates axisForce
  if start_candidates.isEmpty then .noWindow
  else
    match choose_index_dialog timeCol start_candidates pick with
    | .cancelled => .cancelled
    | .noMatch => .crashed
    | .chosen start_idx =>
      let baseline := leadForce.take baseline_end_frame
      let m := listMean baseline
      let v := sampleVar baseline
      match (findFirstIdx (exceedsContactB m v) (leadForce.drop start_idx)).map (· + start_idx) with
      | none => .noWindow
      | some end_idx => .window start_idx end_idx

/-! Window metrics and result records. -/

/-- The inclusive row slice `df.iloc[start : end + 1]` of one column
(source line 248). -/
def windowSlice (xs : List ℚ) (s e : ℕ) : List ℚ :=
  (xs.drop s).take (e + 1 - s)

/-- Peak of the rectified force over a slice:
`analysis_df[force_col].abs().max()` (source line 251). -/
def peakAbs (xs : List ℚ) : ℚ :=
  ((xs.map (fun x => |x|)).max?).getD 0

/-- Trapezoidal-rule integral `np.trapz(y=ys, x=xs)` (source line 253):
the sum over consecutive sample pairs of
`(x_next − x) · (y + y_next) / 2`. -/
def np_trapz (ys xs : List ℚ) : ℚ :=
  match ys, xs with
  | y1 :: y2 :: ys, x1 :: x2 :: xs => (x2 - x1) * (y1 + y2) / 2 + np_trapz (y2 :: ys) (x2 :: xs)
  | _, _ => 0

/-- The record built by `calculate_and_display` (source lines 256-264). -/
structure ResultRecord where
  subject : String
  mode : String
  filename : String
  peak : ℚ
  impulse : ℚ
  startTime : ℚ
  endTime : ℚ
deriving DecidableEq

/-- The pure computation of `calculate_and_display` (source lines 246-264):
peak rectified force and trapezoidal impulse of the rectified force over
the inclusive window, both rounded to 2 decimals, with the window's
boundary times. -/
def calculate_result (subject mode filename : String)
    (force timeCol : List ℚ) (s e : ℕ) : ResultRecord :=
  let seg := windowSlice force s e
  let tseg := windowSlice timeCol s e
  { subject := subject
    mode := mode
    filename := filename
    peak := round2 (peakAbs seg)
    impulse := round2 (np_trapz (seg.map (fun x => |x|)) tseg)
    startTime := timeCol.getD s 0
    endTime := timeCol.getD e 0 }

/-! Session state. -/

/-- The mutable session state of `ForceAnalysisApp` relevant to result
accumulation: the single pending-result slot `current_analysis_result`
and the accumulated list `results_data` (source lines 57-58). -/
structure Session where
  pending : Option ResultRecord
  results : List ResultRecord
deriving DecidableEq

/-- `run_analysis` in LMJ mode (source lines 158-202 with lines 246-264):
on a detected window the pending slot is overwritten with the new record;
on `noWindow` only the informational message is shown and the state is
left unchanged. -/
def run_analysis_lmj (sess : Session) (subject filename : String)
    (force timeCol : List ℚ) : Session :=
  match analyze_lmj force with
  | .noWindow => sess
  | .window s e =>
    { sess with pending := some (calculate_result subject "LMJ" filename force timeCol s e) }

/-- `run_analysis` in throwing mode (source lines 158-181, 204-244 with
lines 246-264): on a detected window the pending slot is overwritten; on
no window, cancellation or the lookup error the state is left unchanged. -/
def run_analysis_throwing (sess : Session) (subject filename : String)
    (axisForce leadForce timeCol : List ℚ) (pick : List ℚ → Option ℚ) : Session :=
  match analyze_throwing axisForce leadForce timeCol pick with
  | .window s e =>
    { sess with pending := some (calculate_result subject "投球" filename axisForce timeCol s e) }
  | _ => sess

/-- `add_result_to_list` (source lines 353-362): a pending result is
appended to the accumulated list and the pending slot is cleared;
otherwise only a warning is shown and nothing changes. -/
def add_result_to_list (sess : Session) : Session :=
  match sess.pending with
  | some r => { pending := none, results := sess.results ++ [r] }
  | none => sess

/-! CSV normalisation. -/

/-- Python `s.startswith(marker)`, as a character-list comparison. -/
def startsWithB (s marker : String) : Bool :=
  marker.data.isPrefixOf s.data

/-- A parsed data frame: column names and string-valued rows. -/
structure DataFrame where
  cols : List String
  rows : List (List String)
deriving DecidableEq

/-- Column naming of `pandas.read_csv`: an unlabeled (empty) header cell
at position `idx` is named `Unnamed: idx`; labelled cells keep their
label. (Behaviour of the external parser invoked at source line 18.) -/
def pandasColName (idx : ℕ) (raw : String) : String :=
  if raw = "" then "Unnamed: " ++ toString idx else raw

/-- `pd.read_csv(path, header=4)` on pre-split lines (source line 18):
line index 4 is the header, later lines are the data rows. -/
def read_csv_header4 (lines : List (List String)) : DataFrame :=
  { cols := (List.range (lines.getD 4 []).length).map
      (fun k => pandasColName k ((lines.getD 4 []).getD k ""))
    rows := lines.drop 5 }

/-- `df.drop(columns=[c])` (source line 26): remove every column position
named `c` from the header and from every row. -/
def dropColumn (df : DataFrame) (c : String) : DataFrame :=
  let keep := (List.range df.cols.length).filter (fun i => df.cols.getD i "" ≠ c)
  { cols := keep.map (fun i => df.cols.getD i "")
    rows := df.rows.map (fun r => keep.map (fun i => r.getD i "")) }

/-- The fixed rename lookup of `_load_csv` (source lines 29-34). -/
def renameCol (s : String) : String :=
  if s = "Unnamed: 1" then "Time"
  else if s = "FY[1]" then "Force.Fy.1"
  else if s = "FZ[2]" then "Force.Fz.2"
  else s

/-- `_load_csv` (source lines 16-36): parse with the header on line 5,
drop the leading `DataUnit` unit row if present, drop any `DataLabel`
column, and apply the fixed renames. -/
def _load_csv (lines : List (List String)) : DataFrame :=
  let df := read_csv_header4 lines
  let df :=
    if 0 < df.rows.length ∧ startsWithB ((df.rows.headD []).headD "") "DataUnit" then
      { df with rows := df.rows.tail }
    else df
  let df := if "DataLabel" ∈ df.cols then dropColumn df "DataLabel" else df
  { df with cols := df.cols.map renameCol }

/-! Helper lemmas. -/

lemma getD_drop (xs : List ℚ) (s j : ℕ) : (xs.drop s).getD j 0 = xs.getD (s + j) 0 := by
  simp [List.getD_eq_getElem?_getD, List.getElem?_drop]

lemma getD_map_abs (xs : List ℚ) (j : ℕ) :
    (xs.map (fun x => |x|)).getD j 0 = |xs.getD j 0| := by
  rcases h : xs[j]? with _ | x
  · simp [List.getD_eq_getElem?_getD, List.getElem?_map, h]
  · simp [List.getD_eq_getElem?_getD, List.getElem?_map, h]

lemma getD_take (xs : List ℚ) (n j : ℕ) (hj : j < n) : (xs.take n).getD j 0 = xs.getD j 0 := by
  simp [List.getD_eq_getElem?_getD, List.getElem?_take, hj]

lemma findFirstIdx_cons_pos (p : ℚ → Bool) (x : ℚ) (xs : List ℚ) (hp : p x = true) :
    findFirstIdx p (x :: xs) = some 0 := by
  simp [findFirstIdx, hp]

lemma findFirstIdx_cons_neg (p : ℚ → Bool) (x : ℚ) (xs : List ℚ) (hp : p x = false) :
    findFirstIdx p (x :: xs) = (findFirstIdx p xs).map (· + 1) := by
  simp [findFirstIdx, hp]

lemma findFirstIdx_eq_some_iff (p : ℚ → Bool) (xs : List ℚ) (k : ℕ) :
    findFirstIdx p xs = some k ↔
      k < xs.length ∧ p (xs.getD k 0) = true ∧ ∀ j, j < k → p (xs.getD j 0) = false := by
  induction xs generalizing k with
  | nil => simp [findFirstIdx]
  | cons x xs ih =>
    rcases hp : p x with _ | _
    · rw [findFirstIdx_cons_neg p x xs hp]
      rcases k with _ | k
      · simp only [Option.map_eq_some']
        constructor
        · rintro ⟨a, -, ha⟩
          exact absurd ha (Nat.succ_ne_zero a)
        · rintro ⟨-, hx, -⟩
          rw [List.getD_cons_zero] at hx
          rw [hp] at hx
          exact absurd hx (by simp)
      · simp only [Option.map_eq_some']
        constructor
        · rintro ⟨a, ha, haa⟩
          obtain ⟨h1, h2, h3⟩ := (ih a).mp ha
          have hak : a = k := by omega
          subst hak
          refine ⟨by simpa using Nat.succ_lt_succ h1, by simpa using h2, ?_⟩
          rintro (_ | j) hj
          · simpa using hp
          · simpa using h3 j (by omega)
        · rintro ⟨h1, h2, h3⟩
          refine ⟨k, (ih k).mpr ⟨by simpa using Nat.lt_of_succ_lt_succ h1, by simpa using h2, ?_⟩, rfl⟩
          intro j hj
          simpa using h3 (j + 1) (by omega)
    · rw [findFirstIdx_cons_pos p x xs hp]
      constructor
      · rintro h
        injection h with h
        subst h
        exact ⟨Nat.succ_pos _, by simpa using hp, fun j hj => absurd hj (Nat.not_lt_zero j)⟩
      · rintro ⟨-, -, hall⟩
        rcases k with _ | k
        · rfl
        · have h0 := hall 0 (Nat.succ_pos k)
          rw [List.getD_cons_zero, hp] at h0
          exact absurd h0 (by simp)

lemma findFirstIdx_eq_none_iff (p : ℚ → Bool) (xs : List ℚ) :
    findFirstIdx p xs = none ↔ ∀ j, j < xs.length → p (xs.getD j 0) = false := by
  induction xs with
  | nil => simp [findFirstIdx]
  | cons x xs ih =>
    rcases hp : p x with _ | _
    · rw [findFirstIdx_cons_neg p x xs hp, Option.map_eq_none']
      rw [ih]
      constructor
      · rintro hall (_ | j) hj
        · simpa using hp
        · simpa using hall j (by simpa using Nat.lt_of_succ_lt_succ hj)
      · intro hall j hj
        simpa using hall (j + 1) (by simpa using Nat.succ_lt_succ hj)
    · rw [findFirstIdx_cons_pos p x xs hp]
      constructor
      · rintro h
        exact absurd h (by simp)
      · intro hall
        have h0 := hall 0 (Nat.succ_pos _)
        rw [List.getD_cons_zero, hp] at h0
        exact absurd h0 (by simp)

lemma mem_startCandidates_iff (force : List ℚ) (i : ℕ) :
    i ∈ startCandidates force ↔ i < force.length ∧ FORCE_THRESHOLD_N < |force.getD i 0| := by
  simp [startCandidates, List.mem_filter, List.mem_range, and_comm]

lemma startCandidates_sorted (force : List ℚ) : (startCandidates force).Pairwise (· < ·) :=
  List.Pairwise.filter _ (List.pairwise_lt_range _)

lemma headD_mem {l : List ℕ} (h : l ≠ []) : l.headD 0 ∈ l := by
  cases l with
  | nil => exact absurd rfl h
  | cons a t => exact List.mem_cons_self a t

lemma getLastD_mem {l : List ℕ} (h : l ≠ []) (d : ℕ) : l.getLastD d ∈ l := by
  induction l generalizing d with
  | nil => exact absurd rfl h
  | cons a t ih =>
    cases t with
    | nil => simp [List.getLastD]
    | cons b t' =>
      have : (b :: t').getLastD a ∈ b :: t' := ih (by simp) a
      simp only [List.getLastD]
      exact List.mem_cons_of_mem a this

lemma sorted_headD_le {l : List ℕ} (hs : l.Pairwise (· < ·)) {x : ℕ} (hx : x ∈ l) :
    l.headD 0 ≤ x := by
  cases l with
  | nil => simp at hx
  | cons a t =>
    rcases List.mem_cons.mp hx with rfl | hxt
    · simp
    · exact le_of_lt (by simpa using (List.pairwise_cons.mp hs).1 x hxt)

lemma sorted_le_getLastD {l : List ℕ} (hs : l.Pairwise (· < ·)) {x : ℕ} (hx : x ∈ l) (d : ℕ) :
    x ≤ l.getLastD d := by
  induction l generalizing d with
  | nil => simp at hx
  | cons a t ih =>
    cases t with
    | nil =>
      rcases List.mem_cons.mp hx with rfl | hxt
      · simp [List.getLastD]
      · simp at hxt
    | cons b t' =>
      simp only [List.getLastD]
      rcases List.mem_cons.mp hx with hxa | hxt
      · rw [hxa]
        have hmem : (b :: t').getLastD a ∈ b :: t' := getLastD_mem (by simp) a
        exact le_of_lt ((List.pairwise_cons.mp hs).1 _ hmem)
      · exact ih (hs.sublist (List.sublist_cons_self a (b :: t'))) hxt a

lemma sampleVar_nonneg (xs : List ℚ) (h : 2 ≤ xs.length) : 0 ≤ sampleVar xs := by
  unfold sampleVar
  apply div_nonneg
  · apply List.sum_nonneg
    intro x hx
    obtain ⟨y, -, rfl⟩ := List.mem_map.mp hx
    positivity
  · have : (2 : ℚ) ≤ (xs.length : ℚ) := by exact_mod_cast h
    linarith

/-- The squared-comparison encoding agrees with the real-valued
contact-threshold comparison `m + 5·√v < x`. -/
lemma exceedsContactB_iff (m v x : ℚ) (hv : 0 ≤ v) :
    exceedsContactB m v x = true ↔ (m : ℝ) + 5 * Real.sqrt (v : ℝ) < (x : ℝ) := by
  have hv' : (0 : ℝ) ≤ (v : ℝ) := by exact_mod_cast hv
  have hsq : Real.sqrt (25 * (v : ℝ)) = 5 * Real.sqrt (v : ℝ) := by
    rw [Real.sqrt_mul (by norm_num), show Real.sqrt 25 = 5 by
      rw [show (25 : ℝ) = 5 ^ 2 by norm_num, Real.sqrt_sq (by norm_num)]]
  unfold exceedsContactB
  rw [decide_eq_true_eq]
  constructor
  · rintro ⟨h1, h2⟩
    have h1' : (m : ℝ) < (x : ℝ) := by exact_mod_cast h1
    have h2' : 25 * (v : ℝ) < ((x : ℝ) - (m : ℝ)) ^ 2 := by exact_mod_cast h2
    have hlt : Real.sqrt (25 * (v : ℝ)) < (x : ℝ) - (m : ℝ) :=
      (Real.sqrt_lt' (by linarith)).mpr h2'
    rw [hsq] at hlt
    linarith
  · intro h
    have h5 : (0 : ℝ) ≤ 5 * Real.sqrt (v : ℝ) := by positivity
    have h1' : (m : ℝ) < (x : ℝ) := by linarith
    have hlt : Real.sqrt (25 * (v : ℝ)) < (x : ℝ) - (m : ℝ) := by rw [hsq]; linarith
    have h2' : 25 * (v : ℝ) < ((x : ℝ) - (m : ℝ)) ^ 2 :=
      (Real.sqrt_lt' (by linarith)).mp hlt
    exact ⟨by exact_mod_cast h1', by exact_mod_cast h2'⟩

/-! Claim theorems. -/

/-- C1: In LMJ mode, whenever some row's absolute `Force.Fy.1` value
exceeds the 10 N threshold, detection returns a window (with no
disambiguation step) whose startIndex is the first above-threshold row
and whose endIndex is the last above-threshold row — the envelope of all
above-threshold rows, including sub-threshold dips in between; for a
series with exactly one excursion this brackets exactly that excursion. -/
theorem lmj_window_is_envelope (force : List ℚ) (i : ℕ)
    (hi : i < force.length) (hex : FORCE_THRESHOLD_N < |force.getD i 0|) :
    ∃ s e, analyze_lmj force = .window s e ∧ s ≤ e ∧
      s < force.length ∧ FORCE_THRESHOLD_N < |force.getD s 0| ∧
      (∀ j, j < s → ¬(FORCE_THRESHOLD_N < |force.getD j 0|)) ∧
      e < force.length ∧ FORCE_THRESHOLD_N < |force.getD e 0| ∧
      (∀ j, e < j → j < force.length → ¬(FORCE_THRESHOLD_N < |force.getD j 0|)) := by
  have hmem : i ∈ startCandidates force := (mem_startCandidates_iff force i).mpr ⟨hi, hex⟩
  have hne : startCandidates force ≠ [] := List.ne_nil_of_mem hmem
  have hsorted := startCandidates_sorted force
  set c := startCandidates force with hc
  refine ⟨c.headD 0, c.getLastD 0, ?_, ?_, ?_⟩
  · simp only [analyze_lmj, ← hc, List.isEmpty_iff]
    rw [if_neg hne]
  · exact le_trans (sorted_headD_le hsorted (headD_mem hne))
      (sorted_le_getLastD hsorted (headD_mem hne) 0)
  · have hsmem : c.headD 0 ∈ c := headD_mem hne
    have hemem : c.getLastD 0 ∈ c := getLastD_mem hne 0
    obtain ⟨hs1, hs2⟩ := (mem_startCandidates_iff force _).mp hsmem
    obtain ⟨he1, he2⟩ := (mem_startCandidates_iff force _).mp hemem
    refine ⟨hs1, hs2, ?_, he1, he2, ?_⟩
    · intro j hj hjex
      rcases Nat.lt_or_ge j force.length with hjl | hjl
      · have : j ∈ c := (mem_startCandidates_iff force j).mpr ⟨hjl, hjex⟩
        exact absurd hj (Nat.not_lt.mpr (sorted_headD_le hsorted this))
      · have : (0:ℚ) < |force.getD j 0| := lt_trans (by norm_num [FORCE_THRESHOLD_N]) hjex
        rw [List.getD_eq_getElem?_getD, List.getElem?_eq_none (by omega)] at this
        simp at this
    · intro j hj hjl hjex
      have : j ∈ c := (mem_startCandidates_iff force j).mpr ⟨hjl, hjex⟩
      exact absurd hj (Nat.not_lt.mpr (sorted_le_getLastD hsorted this 0))

/-- Witness for C1 at a concrete series with one excursion (rows 1-2). -/
theorem lmj_window_is_envelope_witness :
    ∃ s e, analyze_lmj [0, 11, 12, 0] = .window s e ∧ s ≤ e ∧
      s < (4:ℕ) ∧ FORCE_THRESHOLD_N < |([0, 11, 12, 0] : List ℚ).getD s 0| ∧
      (∀ j, j < s → ¬(FORCE_THRESHOLD_N < |([0, 11, 12, 0] : List ℚ).getD j 0|)) ∧
      e < (4:ℕ) ∧ FORCE_THRESHOLD_N < |([0, 11, 12, 0] : List ℚ).getD e 0| ∧
      (∀ j, e < j → j < (4:ℕ) → ¬(FORCE_THRESHOLD_N < |([0, 11, 12, 0] : List ℚ).getD j 0|)) :=
  lmj_window_is_envelope [0, 11, 12, 0] 1 (by decide) (by decide)

lemma np_trapz_eq_sum (ys xs : List ℚ) (h : ys.length = xs.length) :
    np_trapz ys xs = ∑ i in Finset.range (xs.length - 1),
      (xs.getD (i + 1) 0 - xs.getD i 0) * (ys.getD i 0 + ys.getD (i + 1) 0) / 2 := by
  induction ys generalizing xs with
  | nil =>
    cases xs with
    | nil => simp [np_trapz]
    | cons x xs => simp at h
  | cons y1 ys' ih =>
    cases ys' with
    | nil =>
      cases xs with
      | nil => simp at h
      | cons x1 xs₂ =>
        cases xs₂ with
        | nil => simp [np_trapz]
        | cons x2 xs₃ => simp at h
    | cons y2 ys'' =>
      cases xs with
      | nil => simp at h
      | cons x1 xs₂ =>
        cases xs₂ with
        | nil => simp at h
        | cons x2 xs₃ =>
          have h' : (y2 :: ys'').length = (x2 :: xs₃).length := by
            simpa using Nat.succ_injective h
          have ihx := ih (x2 :: xs₃) h'
          show (x2 - x1) * (y1 + y2) / 2 + np_trapz (y2 :: ys'') (x2 :: xs₃) = _
          rw [ihx]
          have hlen : (x1 :: x2 :: xs₃).length - 1 = ((x2 :: xs₃).length - 1) + 1 := by
            simp
          rw [hlen, Finset.sum_range_succ']
          simp only [List.getD_cons_succ, List.getD_cons_zero]
          ring

/-- Evenly spaced sample times `t0, t0 + dt, …` used to state the
closed-form trapezoid check. -/
def evenTimes (t0 dt : ℚ) (N : ℕ) : List ℚ :=
  (List.range N).map (fun (i : ℕ) => t0 + (i : ℚ) * dt)

lemma evenTimes_succ (t0 dt : ℚ) (N : ℕ) :
    evenTimes t0 dt (N + 1) = t0 :: evenTimes (t0 + dt) dt N := by
  unfold evenTimes
  rw [List.range_succ_eq_map]
  rw [List.map_cons, List.map_map]
  congr 1
  · push_cast
    ring
  · apply List.map_congr_left
    intro i hi
    show t0 + ((i + 1 : ℕ) : ℚ) * dt = t0 + dt + (i : ℚ) * dt
    push_cast
    ring

lemma np_trapz_unit (N : ℕ) (dt t0 : ℚ) :
    np_trapz (List.replicate N 1) (evenTimes t0 dt N) = ((N - 1 : ℕ) : ℚ) * dt := by
  induction N generalizing t0 with
  | zero => simp [np_trapz, evenTimes]
  | succ n ih =>
    cases n with
    | zero => simp [np_trapz, evenTimes]
    | succ m =>
      rw [evenTimes_succ]
      rw [show List.replicate (m + 1 + 1) (1:ℚ) = 1 :: List.replicate (m + 1) 1 from rfl]
      rw [show evenTimes (t0 + dt) dt (m + 1) = (t0 + dt) :: evenTimes (t0 + dt + dt) dt m from
        evenTimes_succ (t0 + dt) dt m]
      rw [show List.replicate (m + 1) (1:ℚ) = 1 :: List.replicate m 1 from rfl]
      show (t0 + dt - t0) * (1 + 1) / 2 + np_trapz (1 :: List.replicate m 1)
          ((t0 + dt) :: evenTimes (t0 + dt + dt) dt m) = _
      rw [show (1:ℚ) :: List.replicate m 1 = List.replicate (m + 1) 1 from rfl]
      rw [show (t0 + dt) :: evenTimes (t0 + dt + dt) dt m = evenTimes (t0 + dt) dt (m + 1) from
        (evenTimes_succ (t0 + dt) dt m).symm]
      rw [ih (t0 + dt)]
      push_cast
      ring

lemma windowSlice_length (xs : List ℚ) (s e : ℕ) (hs : s ≤ e) (he : e < xs.length) :
    (windowSlice xs s e).length = e + 1 - s := by
  simp only [windowSlice, List.length_take, List.length_drop]
  omega

lemma windowSlice_getD (xs : List ℚ) (s e i : ℕ) (hi : i < e + 1 - s) :
    (windowSlice xs s e).getD i 0 = xs.getD (s + i) 0 := by
  rw [windowSlice, getD_take _ _ _ hi, getD_drop]

/-- C4: The impulse of a detection window is the trapezoidal-rule
integral of the rectified force against the actual `Time` values over the
inclusive row range `[startIndex, endIndex]` (pairwise-linear between
consecutive samples, honouring irregular spacing), and on `N` evenly
spaced unit-height samples at spacing `dt` the trapezoid integral equals
`(N − 1) · dt`. -/
theorem impulse_is_trapezoid (sub md fn : String) (force timeCol : List ℚ) (s e : ℕ)
    (hs : s ≤ e) (hf : e < force.length) (ht : e < timeCol.length) (N : ℕ) (dt t0 : ℚ) :
    (calculate_result sub md fn force timeCol s e).impulse
      = round2 (∑ i in Finset.range (e - s),
          (timeCol.getD (s + i + 1) 0 - timeCol.getD (s + i) 0) *
            (|force.getD (s + i) 0| + |force.getD (s + i + 1) 0|) / 2) ∧
    np_trapz (List.replicate N 1) (evenTimes t0 dt N) = ((N - 1 : ℕ) : ℚ) * dt := by
  constructor
  · show round2 (np_trapz ((windowSlice force s e).map (fun x => |x|)) (windowSlice timeCol s e)) = _
    congr 1
    have hlf : ((windowSlice force s e).map (fun x => |x|)).length = e + 1 - s := by
      rw [List.length_map, windowSlice_length force s e hs hf]
    have hlt : (windowSlice timeCol s e).length = e + 1 - s := by
      exact windowSlice_length timeCol s e hs ht
    rw [np_trapz_eq_sum _ _ (by rw [hlf, hlt]), hlt]
    have hrange : e + 1 - s - 1 = e - s := by omega
    rw [hrange]
    apply Finset.sum_congr rfl
    intro i hi
    have hi' : i < e - s := Finset.mem_range.mp hi
    have h1 : i < e + 1 - s := by omega
    have h2 : i + 1 < e + 1 - s := by omega
    rw [windowSlice_getD timeCol s e i h1, windowSlice_getD timeCol s e (i + 1) h2,
      getD_map_abs, getD_map_abs,
      windowSlice_getD force s e i h1, windowSlice_getD force s e (i + 1) h2]
    rw [show s + (i + 1) = s + i + 1 from by omega]
  · exact np_trapz_unit N dt t0

/-- Witness for C4 over a concrete 3-sample window with irregular spacing. -/
theorem impulse_is_trapezoid_witness :
    (calculate_result "A" "LMJ" "f" [2, -3, 4] [0, 1, 3] 0 2).impulse
      = round2 (∑ i in Finset.range 2,
          (([0, 1, 3] : List ℚ).getD (0 + i + 1) 0 - ([0, 1, 3] : List ℚ).getD (0 + i) 0) *
            (|([2, -3, 4] : List ℚ).getD (0 + i) 0| + |([2, -3, 4] : List ℚ).getD (0 + i + 1) 0|) / 2) ∧
    np_trapz (List.replicate 4 1) (evenTimes 0 (1/2) 4) = ((4 - 1 : ℕ) : ℚ) * (1/2) :=
  impulse_is_trapezoid "A" "LMJ" "f" [2, -3, 4] [0, 1, 3] 0 2 (by decide) (by decide) (by decide)
    4 (1/2) 0

/-! Concrete data for witnesses: a lead-foot channel of 26 resting zeros
followed by one spike of 27 N (baseline mean 1, sample variance 27,
spike above mean + 5·std). -/

def leadFix : List ℚ := List.replicate 26 0 ++ [27]

def tcFix : List ℚ := [0, 1, 2]

def axFix : List ℚ := [11, 0, 12]

def pickFst : List ℚ → Option ℚ := fun ts => some (ts.headD 0)

def pickSnd : List ℚ → Option ℚ := fun ts => some (ts.getD 1 0)

lemma exceeds_one27_zero : exceedsContactB 1 27 0 = false := by
  simp only [exceedsContactB, decide_eq_false_iff_not]
  intro h
  norm_num at h

lemma exceeds_one27_spike : exceedsContactB 1 27 27 = true := by
  simp only [exceedsContactB, decide_eq_true_eq]
  norm_num

lemma listMean_leadFix : listMean leadFix = 1 := by
  simp [listMean, leadFix]

lemma sampleVar_leadFix : sampleVar leadFix = 27 := by
  unfold sampleVar
  rw [listMean_leadFix]
  rw [show leadFix = List.replicate 26 0 ++ [27] from rfl]
  simp only [List.map_append, List.map_replicate, List.sum_append, List.sum_replicate,
    List.length_append, List.length_replicate, smul_eq_mul, List.map_cons, List.map_nil,
    List.sum_cons, List.sum_nil, List.length_cons, List.length_nil]
  norm_num

lemma leadFix_take : leadFix.take baseline_end_frame = leadFix :=
  List.take_of_length_le (by decide)

lemma findFirstIdx_zeros_spike (k : ℕ) :
    findFirstIdx (exceedsContactB 1 27) (List.replicate k 0 ++ [27]) = some k := by
  induction k with
  | zero =>
    rw [show List.replicate 0 (0:ℚ) ++ [27] = [27] from rfl]
    rw [findFirstIdx_cons_pos _ _ _ exceeds_one27_spike]
  | succ k ih =>
    rw [show List.replicate (k+1) (0:ℚ) ++ [27] = 0 :: (List.replicate k 0 ++ [27]) from by
      simp [List.replicate_succ]]
    rw [findFirstIdx_cons_neg _ _ _ exceeds_one27_zero, ih]
    rfl

lemma leadFix_drop_one : leadFix.drop 1 = List.replicate 25 (0:ℚ) ++ [27] := by rfl

lemma leadFix_drop_two : leadFix.drop 2 = List.replicate 24 (0:ℚ) ++ [27] := by rfl

lemma throwRunSingle : analyze_throwing [0, 11] leadFix [] (fun _ => none) = .window 1 26 := by
  have hsc : startCandidates [0, 11] = [1] := by decide
  simp only [analyze_throwing, hsc]
  rw [show ([1] : List ℕ).isEmpty = false from rfl]
  rw [show choose_index_dialog [] [1] (fun _ => none) = .chosen 1 from rfl]
  simp only [leadFix_take, listMean_leadFix, sampleVar_leadFix, leadFix_drop_one,
    findFirstIdx_zeros_spike 25, Option.map_some']
  norm_num

lemma round4_zero : round4 0 = 0 := by
  norm_num [round4]

lemma round4_two : round4 2 = 2 := by
  norm_num [round4, round_eq]

lemma dialogTimes_fix : dialogTimes tcFix [0, 2] = [0, 2] := by
  rw [dialogTimes]
  rw [show (([0, 2] : List ℕ).map (fun i => round4 (tcFix.getD i 0)))
      = [round4 0, round4 2] from rfl]
  rw [round4_zero, round4_two]

lemma timeToIndex_fix_zero : timeToIndex tcFix 0 = some 0 := by
  rw [timeToIndex, show List.range tcFix.length = [0, 1, 2] from rfl]
  apply List.find?_cons_of_pos
  rw [decide_eq_true_eq, show tcFix.getD 0 0 = 0 from rfl]
  norm_num

lemma timeToIndex_fix_two : timeToIndex tcFix 2 = some 2 := by
  rw [timeToIndex, show List.range tcFix.length = [0, 1, 2] from rfl]
  rw [List.find?_cons_of_neg _ (by rw [decide_eq_true_eq, show tcFix.getD 0 0 = 0 from rfl]; norm_num)]
  rw [List.find?_cons_of_neg _ (by rw [decide_eq_true_eq, show tcFix.getD 1 0 = 1 from rfl]; norm_num)]
  apply List.find?_cons_of_pos
  rw [decide_eq_true_eq, show tcFix.getD 2 0 = 2 from rfl]
  norm_num

lemma throwRunFst : analyze_throwing axFix leadFix tcFix pickFst = .window 0 26 := by
  have hsc : startCandidates axFix = [0, 2] := by decide
  have hdlg : choose_index_dialog tcFix [0, 2] pickFst = .chosen 0 := by
    rw [choose_index_dialog, if_neg (by norm_num), dialogTimes_fix]
    simp only [pickFst, List.headD_cons]
    rw [timeToIndex_fix_zero]
  simp only [analyze_throwing, hsc, hdlg]
  rw [show ([0, 2] : List ℕ).isEmpty = false from rfl]
  simp only [leadFix_take, listMean_leadFix, sampleVar_leadFix, List.drop_zero]
  rw [show leadFix = List.replicate 26 (0:ℚ) ++ [27] from rfl, findFirstIdx_zeros_spike 26]
  norm_num

lemma throwRunSnd : analyze_throwing axFix leadFix tcFix pickSnd = .window 2 26 := by
  have hsc : startCandidates axFix = [0, 2] := by decide
  have hdlg : choose_index_dialog tcFix [0, 2] pickSnd = .chosen 2 := by
    rw [choose_index_dialog, if_neg (by norm_num), dialogTimes_fix]
    simp only [pickSnd]
    rw [show ([0, 2] : List ℚ).getD 1 0 = 2 from rfl, timeToIndex_fix_two]
  simp only [analyze_throwing, hsc, hdlg]
  rw [show ([0, 2] : List ℕ).isEmpty = false from rfl]
  simp only [leadFix_take, listMean_leadFix, sampleVar_leadFix, leadFix_drop_two,
    findFirstIdx_zeros_spike 24, Option.map_some']
  norm_num

lemma analyze_throwing_window_elim (axisF leadF timeCol : List ℚ) (pick : List ℚ → Option ℚ)
    (s e : ℕ) (h : analyze_throwing axisF leadF timeCol pick = .window s e) :
    choose_index_dialog timeCol (startCandidates axisF) pick = .chosen s ∧
    (findFirstIdx (exceedsContactB (listMean (leadF.take baseline_end_frame))
        (sampleVar (leadF.take baseline_end_frame))) (leadF.drop s)).map (· + s) = some e := by
  by_cases hie : (startCandidates axisF).isEmpty = true
  · have hnw : analyze_throwing axisF leadF timeCol pick = .noWindow := by
      simp [analyze_throwing, hie]
    rw [hnw] at h
    cases h
  · have hie' : (startCandidates axisF).isEmpty = false := by
      simpa using hie
    rcases hd : choose_index_dialog timeCol (startCandidates axisF) pick with i | _ | _
    · rcases hm : (findFirstIdx (exceedsContactB (listMean (leadF.take baseline_end_frame))
          (sampleVar (leadF.take baseline_end_frame))) (leadF.drop i)).map (· + i) with _ | k
      · have hnw : analyze_throwing axisF leadF timeCol pick = .noWindow := by
          simp [analyze_throwing, hie', hd, hm]
        rw [hnw] at h
        cases h
      · have hw : analyze_throwing axisF leadF timeCol pick = .window i k := by
          simp [analyze_throwing, hie', hd, hm]
        rw [hw] at h
        injection h with h1 h2
        subst h1
        subst h2
        exact ⟨rfl, hm⟩
    · have hc : analyze_throwing axisF leadF timeCol pick = .cancelled := by
        simp [analyze_throwing, hie', hd]
      rw [hc] at h
      cases h
    · have hc : analyze_throwing axisF leadF timeCol pick = .crashed := by
        simp [analyze_throwing, hie', hd]
      rw [hc] at h
      cases h

/-- C2: In Throwing mode, after the start index is resolved, the end
index is the absolute index (relative offset plus startIndex) of the
first row at or after startIndex (inclusive) whose raw lead-foot value
exceeds `baselineMean + 5·baselineStd`, where the baseline statistics are
the mean and the sample standard deviation (dividing by N−1) of the raw
lead-foot channel over the first `samplingRate × 1.0 s = 1000` rows
(or over all rows, without error, if the table is shorter). -/
theorem throwing_contact_end
    (axisF leadF timeCol : List ℚ) (pick : List ℚ → Option ℚ) (s e : ℕ)
    (hbl : 2 ≤ (leadF.take baseline_end_frame).length)
    (h : analyze_throwing axisF leadF timeCol pick = .window s e) :
    BASELINE_PERIOD_S * SAMPLING_RATE = (baseline_end_frame : ℚ) ∧
    (leadF.take baseline_end_frame).length = min 1000 leadF.length ∧
    listMean (leadF.take baseline_end_frame)
      = (leadF.take baseline_end_frame).sum / ((leadF.take baseline_end_frame).length : ℚ) ∧
    sampleVar (leadF.take baseline_end_frame)
      = ((leadF.take baseline_end_frame).map
          (fun x => (x - listMean (leadF.take baseline_end_frame)) ^ 2)).sum /
          (((leadF.take baseline_end_frame).length : ℚ) - 1) ∧
    s ≤ e ∧ e < leadF.length ∧
    (((listMean (leadF.take baseline_end_frame) : ℚ) : ℝ)
        + 5 * Real.sqrt ((sampleVar (leadF.take baseline_end_frame) : ℚ) : ℝ)
      < ((leadF.getD e 0 : ℚ) : ℝ)) ∧
    ∀ j, s ≤ j → j < e →
      ¬(((listMean (leadF.take baseline_end_frame) : ℚ) : ℝ)
          + 5 * Real.sqrt ((sampleVar (leadF.take baseline_end_frame) : ℚ) : ℝ)
        < ((leadF.getD j 0 : ℚ) : ℝ)) := by
  obtain ⟨-, hm⟩ := analyze_throwing_window_elim axisF leadF timeCol pick s e h
  obtain ⟨k, hk, hke⟩ := Option.map_eq_some'.mp hm
  obtain ⟨hklen, hkp, hkmin⟩ := (findFirstIdx_eq_some_iff _ _ _).mp hk
  rw [List.length_drop] at hklen
  have hv : 0 ≤ sampleVar (leadF.take baseline_end_frame) :=
    sampleVar_nonneg _ hbl
  refine ⟨by norm_num [BASELINE_PERIOD_S, SAMPLING_RATE, baseline_end_frame],
    by rw [List.length_take]; rfl, rfl, rfl, ?_, ?_, ?_, ?_⟩
  · omega
  · omega
  · rw [getD_drop] at hkp
    have := (exceedsContactB_iff _ _ _ hv).mp hkp
    rw [show s + k = e from by omega] at this
    exact this
  · intro j hsj hje
    have hlt : j - s < k := by omega
    have hp := hkmin (j - s) hlt
    rw [getD_drop, show s + (j - s) = j from by omega] at hp
    intro hcon
    rw [(exceedsContactB_iff _ _ _ hv).mpr hcon] at hp
    cases hp

/-- Witness for C2 at a concrete run: single start candidate at row 1,
lead-foot channel of 26 zeros and a 27 N spike at row 26. -/
theorem throwing_contact_end_witness :
    BASELINE_PERIOD_S * SAMPLING_RATE = (baseline_end_frame : ℚ) ∧
    (leadFix.take baseline_end_frame).length = min 1000 leadFix.length ∧
    listMean (leadFix.take baseline_end_frame)
      = (leadFix.take baseline_end_frame).sum / ((leadFix.take baseline_end_frame).length : ℚ) ∧
    sampleVar (leadFix.take baseline_end_frame)
      = ((leadFix.take baseline_end_frame).map
          (fun x => (x - listMean (leadFix.take baseline_end_frame)) ^ 2)).sum /
          (((leadFix.take baseline_end_frame).length : ℚ) - 1) ∧
    1 ≤ 26 ∧ 26 < leadFix.length ∧
    (((listMean (leadFix.take baseline_end_frame) : ℚ) : ℝ)
        + 5 * Real.sqrt ((sampleVar (leadFix.take baseline_end_frame) : ℚ) : ℝ)
      < ((leadFix.getD 26 0 : ℚ) : ℝ)) ∧
    ∀ j, 1 ≤ j → j < 26 →
      ¬(((listMean (leadFix.take baseline_end_frame) : ℚ) : ℝ)
          + 5 * Real.sqrt ((sampleVar (leadFix.take baseline_end_frame) : ℚ) : ℝ)
        < ((leadFix.getD j 0 : ℚ) : ℝ)) :=
  throwing_contact_end [0, 11] leadFix [] (fun _ => none) 1 26 (by decide) throwRunSingle

/-- C10: The Throwing-mode contact threshold does not depend on the
operator's disambiguation choice: any two detection runs on the same
loaded table resolve their end index against the same baseline statistics
(mean and sample variance of the first 1000 lead-foot rows), whatever
start candidate each run's operator selected. -/
theorem contact_threshold_start_independent
    (axisF leadF timeCol : List ℚ) (pickA pickB : List ℚ → Option ℚ) (s₁ e₁ s₂ e₂ : ℕ)
    (h₁ : analyze_throwing axisF leadF timeCol pickA = .window s₁ e₁)
    (h₂ : analyze_throwing axisF leadF timeCol pickB = .window s₂ e₂) :
    ∃ m v, m = listMean (leadF.take baseline_end_frame) ∧
      v = sampleVar (leadF.take baseline_end_frame) ∧
      (findFirstIdx (exceedsContactB m v) (leadF.drop s₁)).map (· + s₁) = some e₁ ∧
      (findFirstIdx (exceedsContactB m v) (leadF.drop s₂)).map (· + s₂) = some e₂ :=
  ⟨listMean (leadF.take baseline_end_frame), sampleVar (leadF.take baseline_end_frame),
    rfl, rfl,
    (analyze_throwing_window_elim axisF leadF timeCol pickA s₁ e₁ h₁).2,
    (analyze_throwing_window_elim axisF leadF timeCol pickB s₂ e₂ h₂).2⟩

/-- Witness for C10: two runs on the same table selecting start
candidates 0 and 2 respectively. -/
theorem contact_threshold_start_independent_witness :
    ∃ m v, m = listMean (leadFix.take baseline_end_frame) ∧
      v = sampleVar (leadFix.take baseline_end_frame) ∧
      (findFirstIdx (exceedsContactB m v) (leadFix.drop 0)).map (· + 0) = some 26 ∧
      (findFirstIdx (exceedsContactB m v) (leadFix.drop 2)).map (· + 2) = some 26 :=
  contact_threshold_start_independent axFix leadFix tcFix pickFst pickSnd 0 26 2 26
    throwRunFst throwRunSnd

/-- C5: Detection reports NoWindowFound (a non-fatal outcome, with no
result computed) whenever no sample of the relevant start channel exceeds
the 10 N threshold in absolute value — in either mode — and likewise in
Throwing mode when no lead-foot sample at or after the resolved start
exceeds the contact threshold. -/
theorem no_window_outcomes (force axisF leadF timeCol : List ℚ)
    (pick : List ℚ → Option ℚ) (s : ℕ) :
    ((∀ i, i < force.length → |force.getD i 0| ≤ FORCE_THRESHOLD_N) →
      analyze_lmj force = .noWindow) ∧
    ((∀ i, i < axisF.length → |axisF.getD i 0| ≤ FORCE_THRESHOLD_N) →
      analyze_throwing axisF leadF timeCol pick = .noWindow) ∧
    (2 ≤ (leadF.take baseline_end_frame).length →
      choose_index_dialog timeCol (startCandidates axisF) pick = .chosen s →
      (∀ j, s ≤ j → j < leadF.length →
        ((leadF.getD j 0 : ℚ) : ℝ) ≤ ((listMean (leadF.take baseline_end_frame) : ℚ) : ℝ)
          + 5 * Real.sqrt ((sampleVar (leadF.take baseline_end_frame) : ℚ) : ℝ)) →
      analyze_throwing axisF leadF timeCol pick = .noWindow) := by
  refine ⟨?_, ?_, ?_⟩
  · intro hall
    have hempty : startCandidates force = [] := by
      rw [List.eq_nil_iff_forall_not_mem]
      intro i hi
      obtain ⟨h1, h2⟩ := (mem_startCandidates_iff force i).mp hi
      exact absurd h2 (not_lt.mpr (hall i h1))
    simp [analyze_lmj, hempty]
  · intro hall
    have hempty : startCandidates axisF = [] := by
      rw [List.eq_nil_iff_forall_not_mem]
      intro i hi
      obtain ⟨h1, h2⟩ := (mem_startCandidates_iff axisF i).mp hi
      exact absurd h2 (not_lt.mpr (hall i h1))
    simp [analyze_throwing, hempty]
  · intro hbl hdlg hno
    have hv : 0 ≤ sampleVar (leadF.take baseline_end_frame) := sampleVar_nonneg _ hbl
    by_cases hie : (startCandidates axisF).isEmpty = true
    · simp [analyze_throwing, hie]
    · have hie' : (startCandidates axisF).isEmpty = false := by simpa using hie
      have hm : findFirstIdx (exceedsContactB (listMean (leadF.take baseline_end_frame))
          (sampleVar (leadF.take baseline_end_frame))) (leadF.drop s) = none := by
        rw [findFirstIdx_eq_none_iff]
        intro j hj
        rw [List.length_drop] at hj
        rw [getD_drop]
        rcases hb : exceedsContactB (listMean (leadF.take baseline_end_frame))
            (sampleVar (leadF.take baseline_end_frame)) (leadF.getD (s + j) 0) with _ | _
        · rfl
        · exfalso
          have hreal := (exceedsContactB_iff _ _ _ hv).mp hb
          have hle := hno (s + j) (by omega) (by omega)
          exact absurd hreal (not_lt.mpr hle)
      simp [analyze_throwing, hie', hdlg, hm]

/-- Witness for C5: a flat LMJ series, a flat axis-foot channel, and a
run whose lead-foot channel never rises above the contact threshold. -/
theorem no_window_outcomes_witness :
    analyze_lmj [0, 5] = .noWindow ∧
    analyze_throwing [3] [0, 0] [0, 1] (fun _ => none) = .noWindow ∧
    analyze_throwing [0, 11] [0, 0, -5] [] (fun _ => none) = .noWindow := by
  refine ⟨?_, ?_, ?_⟩
  · exact (no_window_outcomes [0, 5] [] [] [] (fun _ => none) 0).1 (by decide)
  · exact (no_window_outcomes [] [3] [0, 0] [0, 1] (fun _ => none) 0).2.1 (by decide)
  · refine (no_window_outcomes [] [0, 11] [0, 0, -5] [] (fun _ => none) 1).2.2
      (by decide) (by decide) ?_
    intro j h1 h2
    have h2' : j < 3 := by simpa using h2
    have htk : (([0, 0, -5] : List ℚ).take baseline_end_frame) = [0, 0, -5] := rfl
    have hm : listMean ([0, 0, -5] : List ℚ) = -5/3 := by
      norm_num [listMean]
    have hvv : sampleVar ([0, 0, -5] : List ℚ) = 25/3 := by
      unfold sampleVar
      norm_num [listMean]
    rw [htk, hm, hvv]
    have hs2 : (2:ℝ) ≤ Real.sqrt ((25/3 : ℚ) : ℝ) := by
      rw [show ((25/3 : ℚ) : ℝ) = 25/3 from by norm_num]
      have h4 : Real.sqrt 4 ≤ Real.sqrt (25/3) := Real.sqrt_le_sqrt (by norm_num)
      rw [show (4:ℝ) = 2^2 from by norm_num, Real.sqrt_sq (by norm_num)] at h4
      exact h4
    have hj : j = 1 ∨ j = 2 := by omega
    rcases hj with rfl | rfl
    · rw [show ([0, 0, -5] : List ℚ).getD 1 0 = 0 from rfl]
      push_cast
      linarith
    · rw [show ([0, 0, -5] : List ℚ).getD 2 0 = -5 from rfl]
      push_cast
      linarith

/-- C3 counterexample: a table with exactly two disjoint above-threshold
excursions of width 2 (rows 1-2 and rows 4-5). Disambiguation presents
one candidate time per above-threshold row — four times, not two. -/
theorem two_excursions_four_candidates :
    startCandidates [0, 11, 11, 0, 11, 11, 0] = [1, 2, 4, 5] ∧
    (∃ ts, dialogPrompt [0, 1, 2, 3, 4, 5, 6] (startCandidates [0, 11, 11, 0, 11, 11, 0])
        = some ts ∧ ts.length = 4 ∧ ts.length ≠ 2) := by
  have hsc : startCandidates [0, 11, 11, 0, 11, 11, 0] = [1, 2, 4, 5] := by decide
  refine ⟨hsc, dialogTimes [0, 1, 2, 3, 4, 5, 6] [1, 2, 4, 5], ?_, by simp [dialogTimes], by simp [dialogTimes]⟩
  rw [hsc, dialogPrompt, if_neg (by norm_num)]

/-- C3 (amended): the start-candidate set is every row whose absolute
axis-foot force exceeds 10 N (one candidate time per row, not per
excursion); disambiguation is requested exactly when that set has more
than one element, presenting all candidate times, and a single candidate
is used with no prompt (the dialog result does not consult the operator). -/
theorem throwing_disambiguation_policy (axisF timeCol : List ℚ) (pick : List ℚ → Option ℚ) :
    (∀ i, i ∈ startCandidates axisF ↔
      (i < axisF.length ∧ FORCE_THRESHOLD_N < |axisF.getD i 0|)) ∧
    (1 < (startCandidates axisF).length →
      dialogPrompt timeCol (startCandidates axisF)
        = some ((startCandidates axisF).map (fun i => round4 (timeCol.getD i 0)))) ∧
    ((startCandidates axisF).length = 1 →
      dialogPrompt timeCol (startCandidates axisF) = none ∧
      choose_index_dialog timeCol (startCandidates axisF) pick
        = .chosen ((startCandidates axisF).headD 0)) := by
  refine ⟨mem_startCandidates_iff axisF, ?_, ?_⟩
  · intro hlen
    rw [dialogPrompt, if_neg (by omega)]
    rfl
  · intro hlen
    exact ⟨by rw [dialogPrompt, if_pos hlen],
      by rw [choose_index_dialog, if_pos hlen]⟩

/-- Witness for C3 (amended): a two-candidate table showing the prompt
and a one-candidate table showing the silent path. -/
theorem throwing_disambiguation_policy_witness :
    (1 ∈ startCandidates [0, 11, 12] ↔
      (1 < ([0, 11, 12] : List ℚ).length ∧ FORCE_THRESHOLD_N < |([0, 11, 12] : List ℚ).getD 1 0|)) ∧
    dialogPrompt [0, 1, 2] (startCandidates [0, 11, 12])
      = some ((startCandidates [0, 11, 12]).map (fun i => round4 (([0, 1, 2] : List ℚ).getD i 0))) ∧
    dialogPrompt [0, 1] (startCandidates [0, 11]) = none ∧
    choose_index_dialog [0, 1] (startCandidates [0, 11]) (fun _ => none)
      = .chosen ((startCandidates [0, 11]).headD 0) := by
  refine ⟨(throwing_disambiguation_policy [0, 11, 12] [0, 1, 2] (fun _ => none)).1 1,
    (throwing_disambiguation_policy [0, 11, 12] [0, 1, 2] (fun _ => none)).2.1 (by decide),
    (throwing_disambiguation_policy [0, 11] [0, 1] (fun _ => none)).2.2 (by decide)⟩

lemma timeToIndex_unique (timeCol : List ℚ) (t : ℚ) (i : ℕ) (hi : i < timeCol.length)
    (hmatch : |timeCol.getD i 0 - t| < 1 / 1000000000)
    (huniq : ∀ j, j < timeCol.length → |timeCol.getD j 0 - t| < 1 / 1000000000 → j = i) :
    timeToIndex timeCol t = some i := by
  unfold timeToIndex
  rcases hf : (List.range timeCol.length).find?
      (fun j => decide (|timeCol.getD j 0 - t| < 1 / 1000000000)) with _ | x
  · exfalso
    have hall := List.find?_eq_none.mp hf i (List.mem_range.mpr hi)
    rw [decide_eq_true_eq] at hall
    exact hall hmatch
  · have hp := List.find?_some hf
    rw [decide_eq_true_eq] at hp
    have hxmem := List.mem_of_find?_eq_some hf
    have hxlen := List.mem_range.mp hxmem
    rw [huniq x hxlen hp]

/-- C6 counterexample: with Time values `[1/3, 0.3333]`, candidate row 0
displays as `0.3333`; exactly one row lies within `1e-9` of that chosen
value, yet selecting row 0's displayed time resolves to row 1, not row 0. -/
theorem dialog_roundtrip_counterexample :
    round4 ((1 : ℚ)/3) = 3333/10000 ∧
    dialogTimes [(1 : ℚ)/3, 3333/10000] (startCandidates [11, 11]) = [3333/10000, 3333/10000] ∧
    |([(1 : ℚ)/3, 3333/10000] : List ℚ).getD 1 0 - 3333/10000| < 1 / 1000000000 ∧
    (∀ j, j < ([(1 : ℚ)/3, 3333/10000] : List ℚ).length →
      |([(1 : ℚ)/3, 3333/10000] : List ℚ).getD j 0 - 3333/10000| < 1 / 1000000000 → j = 1) ∧
    choose_index_dialog [(1 : ℚ)/3, 3333/10000] (startCandidates [11, 11])
      (fun _ => some (3333/10000)) = .chosen 1 := by
  have hsc : startCandidates [11, 11] = [0, 1] := by decide
  have hr : round4 ((1 : ℚ)/3) = 3333/10000 := by
    norm_num [round4, round_eq]
  have hr2 : round4 ((3333 : ℚ)/10000) = 3333/10000 := by
    norm_num [round4, round_eq]
  have huniq : ∀ j, j < ([(1 : ℚ)/3, 3333/10000] : List ℚ).length →
      |([(1 : ℚ)/3, 3333/10000] : List ℚ).getD j 0 - 3333/10000| < 1 / 1000000000 → j = 1 := by
    intro j hj hclose
    have hj' : j < 2 := by simpa using hj
    interval_cases j
    · rw [show ([(1 : ℚ)/3, 3333/10000] : List ℚ).getD 0 0 = 1/3 from rfl, abs_lt] at hclose
      exact absurd hclose.2 (by norm_num)
    · rfl
  refine ⟨hr, ?_, by norm_num, huniq, ?_⟩
  · rw [hsc, dialogTimes]
    rw [show (([0, 1] : List ℕ).map
        (fun i => round4 (([(1 : ℚ)/3, 3333/10000] : List ℚ).getD i 0)))
      = [round4 ((1 : ℚ)/3), round4 ((3333 : ℚ)/10000)] from rfl]
    rw [hr, hr2]
  · rw [hsc, choose_index_dialog, if_neg (by norm_num)]
    have htti : timeToIndex [(1 : ℚ)/3, 3333/10000] (3333/10000) = some 1 := by
      apply timeToIndex_unique _ _ _ (by norm_num) (by norm_num) huniq
    show (match timeToIndex [(1 : ℚ)/3, 3333/10000] (3333/10000) with
      | some j => DialogResult.chosen j
      | none => DialogResult.noMatch) = DialogResult.chosen 1
    rw [htti]

/-- C6 (amended): the resolved index after a disambiguation choice is the
row whose Time lies within `1e-9` of the chosen value; provided that
candidate row `i`'s own Time is itself within `1e-9` of its 4-decimal
displayed value and is the unique such row, selecting row `i`'s displayed
time resolves back to index `i`. -/
theorem dialog_time_roundtrip (timeCol : List ℚ) (indices : List ℕ)
    (pick : List ℚ → Option ℚ) (i : ℕ)
    (hi : i ∈ indices) (hilen : i < timeCol.length)
    (hpick : pick (dialogTimes timeCol indices) = some (round4 (timeCol.getD i 0)))
    (hself : |timeCol.getD i 0 - round4 (timeCol.getD i 0)| < 1 / 1000000000)
    (huniq : ∀ j, j < timeCol.length →
      |timeCol.getD j 0 - round4 (timeCol.getD i 0)| < 1 / 1000000000 → j = i) :
    choose_index_dialog timeCol indices pick = .chosen i := by
  have htti : timeToIndex timeCol (round4 (timeCol.getD i 0)) = some i :=
    timeToIndex_unique timeCol _ i hilen hself huniq
  by_cases hlen : indices.length = 1
  · rw [choose_index_dialog, if_pos hlen]
    cases indices with
    | nil => simp at hlen
    | cons a t =>
      cases t with
      | nil =>
        have : i = a := by simpa using hi
        rw [this]
        rfl
      | cons b t' => simp at hlen
  · rw [choose_index_dialog, if_neg hlen, hpick]
    show (match timeToIndex timeCol (round4 (timeCol.getD i 0)) with
      | some j => DialogResult.chosen j
      | none => DialogResult.noMatch) = DialogResult.chosen i
    rw [htti]

/-- Witness for C6 (amended) at a 4-decimal-exact time column. -/
theorem dialog_time_roundtrip_witness :
    choose_index_dialog [0, 1/1000] [0, 1] (fun _ => some (round4 (([0, 1/1000] : List ℚ).getD 1 0)))
      = .chosen 1 := by
  have hr : round4 (([0, 1/1000] : List ℚ).getD 1 0) = 1/1000 := by
    rw [show ([0, 1/1000] : List ℚ).getD 1 0 = 1/1000 from rfl]
    norm_num [round4, round_eq]
  refine dialog_time_roundtrip [0, 1/1000] [0, 1] _ 1 (by norm_num) (by norm_num) rfl ?_ ?_
  · rw [hr]
    norm_num
  · intro j hj hclose
    have hj' : j < 2 := by simpa using hj
    rw [hr] at hclose
    interval_cases j
    · rw [show ([0, 1/1000] : List ℚ).getD 0 0 = 0 from rfl, abs_lt] at hclose
      exact absurd hclose.1 (by norm_num)
    · rfl

/-- A stale pending record left over from an earlier detection run. -/
def staleRec : ResultRecord :=
  { subject := "subj", mode := "LMJ", filename := "old.csv",
    peak := 1, impulse := 2, startTime := 0, endTime := 1 }

/-- C7 counterexample: with an unconfirmed pending result in the slot, a
new detection run that ends in NoWindowFound leaves the earlier result in
the pending slot — it is not discarded. -/
theorem stale_pending_counterexample :
    (run_analysis_lmj ⟨some staleRec, []⟩ "subj" "new.csv" [0, 5] [0, 1]).pending
      = some staleRec := by
  have h : analyze_lmj [0, 5] = .noWindow := by decide
  simp [run_analysis_lmj, h]

/-- C7 (amended): a new detection run that successfully computes a result
overwrites the pending slot with exactly that run's record, discarding
any earlier unconfirmed result; a run that ends without a result
(NoWindowFound, cancellation, or the lookup error) leaves the session —
including any earlier pending result — unchanged. -/
theorem pending_overwritten_on_new_result (sess : Session) (sub fn : String)
    (force axisF leadF timeCol : List ℚ) (pick : List ℚ → Option ℚ) (s e : ℕ) :
    (analyze_lmj force = .window s e →
      (run_analysis_lmj sess sub fn force timeCol).pending
        = some (calculate_result sub "LMJ" fn force timeCol s e)) ∧
    (analyze_lmj force = .noWindow →
      run_analysis_lmj sess sub fn force timeCol = sess) ∧
    (analyze_throwing axisF leadF timeCol pick = .window s e →
      (run_analysis_throwing sess sub fn axisF leadF timeCol pick).pending
        = some (calculate_result sub "投球" fn axisF timeCol s e)) ∧
    (analyze_throwing axisF leadF timeCol pick = .noWindow ∨
        analyze_throwing axisF leadF timeCol pick = .cancelled ∨
        analyze_throwing axisF leadF timeCol pick = .crashed →
      run_analysis_throwing sess sub fn axisF leadF timeCol pick = sess) := by
  refine ⟨?_, ?_, ?_, ?_⟩
  · intro h
    simp [run_analysis_lmj, h]
  · intro h
    simp [run_analysis_lmj, h]
  · intro h
    simp [run_analysis_throwing, h]
  · rintro (h | h | h) <;> simp [run_analysis_throwing, h]

/-- Witness for C7 (amended): a successful LMJ run and a successful
throwing run overwrite a stale pending record; a windowless LMJ run and a
windowless throwing run leave the session untouched. -/
theorem pending_overwritten_on_new_result_witness :
    (run_analysis_lmj ⟨some staleRec, []⟩ "s" "f" [0, 11] [0, 1]).pending
      = some (calculate_result "s" "LMJ" "f" [0, 11] [0, 1] 1 1) ∧
    run_analysis_lmj ⟨some staleRec, []⟩ "s" "f" [0, 5] [0, 1] = ⟨some staleRec, []⟩ ∧
    (run_analysis_throwing ⟨some staleRec, []⟩ "s" "f" axFix leadFix tcFix pickFst).pending
      = some (calculate_result "s" "投球" "f" axFix tcFix 0 26) ∧
    run_analysis_throwing ⟨some staleRec, []⟩ "s" "f" [0] leadFix tcFix pickFst
      = ⟨some staleRec, []⟩ :=
  ⟨(pending_overwritten_on_new_result ⟨some staleRec, []⟩ "s" "f"
      [0, 11] [0] leadFix tcFix pickFst 1 1).1 (by decide),
   (pending_overwritten_on_new_result ⟨some staleRec, []⟩ "s" "f"
      [0, 5] [0] leadFix tcFix pickFst 1 1).2.1 (by decide),
   (pending_overwritten_on_new_result ⟨some staleRec, []⟩ "s" "f"
      [0, 5] axFix leadFix tcFix pickFst 0 26).2.2.1 throwRunFst,
   (pending_overwritten_on_new_result ⟨some staleRec, []⟩ "s" "f"
      [0, 11] [0] leadFix tcFix pickFst 1 1).2.2.2 (Or.inl (by decide))⟩

/-- C8: Confirming a pending result appends exactly that record to the
accumulated collection and clears the pending slot, so a second confirm
without a new detection is a no-op and leaves the collection unchanged. -/
theorem confirm_appends_once (sess : Session) (r : ResultRecord)
    (h : sess.pending = some r) :
    (add_result_to_list sess).results = sess.results ++ [r] ∧
    (add_result_to_list sess).pending = none ∧
    add_result_to_list (add_result_to_list sess) = add_result_to_list sess := by
  have h1 : add_result_to_list sess = ⟨none, sess.results ++ [r]⟩ := by
    simp [add_result_to_list, h]
  rw [h1]
  exact ⟨rfl, rfl, by simp [add_result_to_list]⟩

/-- Witness for C8 at a concrete session holding one pending record. -/
theorem confirm_appends_once_witness :
    (add_result_to_list ⟨some staleRec, []⟩).results = [] ++ [staleRec] ∧
    (add_result_to_list ⟨some staleRec, []⟩).pending = none ∧
    add_result_to_list (add_result_to_list ⟨some staleRec, []⟩)
      = add_result_to_list ⟨some staleRec, []⟩ :=
  confirm_appends_once ⟨some staleRec, []⟩ staleRec rfl

lemma map_getD_filter_range (L : List String) (p : String → Bool) :
    ((List.range L.length).filter (fun i => p (L.getD i ""))).map (fun i => L.getD i "")
      = L.filter p := by
  induction L with
  | nil => simp
  | cons a t ih =>
    have hcomp1 : ((List.range t.length).map Nat.succ).filter
          (fun i => p ((a :: t).getD i ""))
        = ((List.range t.length).filter (fun i => p (t.getD i ""))).map Nat.succ := by
      rw [List.filter_map]
      have hfc : List.filter ((fun i => p ((a :: t).getD i "")) ∘ Nat.succ) (List.range t.length)
          = List.filter (fun i => p (t.getD i "")) (List.range t.length) :=
        List.filter_congr (fun i _ => by simp [Function.comp])
      rw [hfc]
    have hmain : (((List.range t.length).filter (fun i => p (t.getD i ""))).map Nat.succ).map
          (fun i => (a :: t).getD i "")
        = t.filter p := by
      rw [List.map_map]
      rw [show ((fun i => (a :: t).getD i "") ∘ Nat.succ) = (fun i => t.getD i "") from
        funext (fun i => by simp [Function.comp])]
      exact ih
    rw [show (a :: t).length = t.length + 1 from rfl, List.range_succ_eq_map, List.filter_cons]
    simp only [List.getD_cons_zero]
    by_cases hpa : p a = true
    · rw [if_pos hpa, List.map_cons]
      simp only [List.getD_cons_zero]
      rw [hcomp1, hmain, List.filter_cons, if_pos hpa]
    · rw [if_neg hpa, hcomp1, hmain, List.filter_cons, if_neg hpa]

lemma renameCol_eq_dataLabel {c : String} (h : renameCol c = "DataLabel") : c = "DataLabel" := by
  unfold renameCol at h
  split_ifs at h with h1 h2 h3
  · exact absurd h (by decide)
  · exact absurd h (by decide)
  · exact absurd h (by decide)
  · exact h

/-- C9: On a minimal fixture (4 preamble lines, a header on the 5th line,
one `DataUnit` unit row, N data rows) the normalizer yields exactly N
rows, drops the unit row and any `DataLabel` column, renames the
unlabeled second raw column to `Time` and the bracket-index channels to
`Force.Fy.1`/`Force.Fz.2`, and passes every other column through
unchanged. -/
theorem csv_normalizer_fixture (p1 p2 p3 p4 hdr unitRow : List String)
    (dataRows : List (List String))
    (hunit : startsWithB (unitRow.headD "") "DataUnit" = true) :
    (_load_csv ([p1, p2, p3, p4, hdr, unitRow] ++ dataRows)).rows.length = dataRows.length ∧
    "DataLabel" ∉ (_load_csv ([p1, p2, p3, p4, hdr, unitRow] ++ dataRows)).cols ∧
    (_load_csv ([p1, p2, p3, p4, hdr, unitRow] ++ dataRows)).cols
      = ((((List.range hdr.length).map
          (fun k => pandasColName k (hdr.getD k ""))).filter
          (fun c => c ≠ "DataLabel")).map renameCol) ∧
    (2 ≤ hdr.length → hdr.getD 1 "" = "" →
      "Time" ∈ (_load_csv ([p1, p2, p3, p4, hdr, unitRow] ++ dataRows)).cols) ∧
    (∀ c, c ∈ hdr → c ≠ "" → c ≠ "DataLabel" →
      renameCol c ∈ (_load_csv ([p1, p2, p3, p4, hdr, unitRow] ++ dataRows)).cols) := by
  set L := (List.range hdr.length).map (fun k => pandasColName k (hdr.getD k "")) with hL
  have hread : read_csv_header4 ([p1, p2, p3, p4, hdr, unitRow] ++ dataRows)
      = ⟨L, unitRow :: dataRows⟩ := rfl
  have hcondition : (0 < (DataFrame.mk L (unitRow :: dataRows)).rows.length ∧
      startsWithB (((DataFrame.mk L (unitRow :: dataRows)).rows.headD []).headD "")
        "DataUnit" = true) := ⟨by simp, by simpa using hunit⟩
  have hmid : _load_csv ([p1, p2, p3, p4, hdr, unitRow] ++ dataRows)
      = { (if "DataLabel" ∈ L then dropColumn ⟨L, dataRows⟩ "DataLabel"
          else (⟨L, dataRows⟩ : DataFrame)) with
          cols := (if "DataLabel" ∈ L then dropColumn ⟨L, dataRows⟩ "DataLabel"
            else (⟨L, dataRows⟩ : DataFrame)).cols.map renameCol } := by
    simp only [_load_csv, hread]
    rw [if_pos hcondition]
    rfl
  have hcols : (_load_csv ([p1, p2, p3, p4, hdr, unitRow] ++ dataRows)).cols
      = (L.filter (fun c => c ≠ "DataLabel")).map renameCol := by
    rw [hmid]
    by_cases hdl : "DataLabel" ∈ L
    · rw [if_pos hdl]
      have hdc : (dropColumn ⟨L, dataRows⟩ "DataLabel").cols
          = L.filter (fun c => c ≠ "DataLabel") :=
        map_getD_filter_range L (fun x => decide (x ≠ "DataLabel"))
      rw [hdc]
    · rw [if_neg hdl]
      have hfe : L.filter (fun c => c ≠ "DataLabel") = L :=
        List.filter_eq_self.mpr (fun a ha => by
          simp only [decide_eq_true_eq]
          intro hcon
          exact hdl (hcon ▸ ha))
      rw [hfe]
  have hrows : (_load_csv ([p1, p2, p3, p4, hdr, unitRow] ++ dataRows)).rows.length
      = dataRows.length := by
    rw [hmid]
    by_cases hdl : "DataLabel" ∈ L
    · rw [if_pos hdl]
      simp [dropColumn]
    · rw [if_neg hdl]
  refine ⟨hrows, ?_, by rw [hcols], ?_, ?_⟩
  · rw [hcols]
    intro hmem
    obtain ⟨x, hxf, hxr⟩ := List.mem_map.mp hmem
    have hx : x = "DataLabel" := renameCol_eq_dataLabel hxr
    have hxne := (List.mem_filter.mp hxf).2
    rw [hx] at hxne
    simp at hxne
  · intro hlen h2nd
    rw [hcols]
    have hmemL : "Unnamed: 1" ∈ L := by
      rw [hL]
      refine List.mem_map.mpr ⟨1, List.mem_range.mpr (by omega), ?_⟩
      rw [h2nd]
      rfl
    have hmemF : "Unnamed: 1" ∈ L.filter (fun c => c ≠ "DataLabel") :=
      List.mem_filter.mpr ⟨hmemL, by decide⟩
    exact List.mem_map.mpr ⟨"Unnamed: 1", hmemF, by decide⟩
  · intro c hc hne hnd
    rw [hcols]
    obtain ⟨k, hk, hgetk⟩ := List.mem_iff_getElem.mp hc
    have hgetD : hdr.getD k "" = c := by
      simp [List.getD_eq_getElem?_getD, List.getElem?_eq_getElem hk, hgetk]
    have hmemL : c ∈ L := by
      rw [hL]
      refine List.mem_map.mpr ⟨k, List.mem_range.mpr hk, ?_⟩
      rw [hgetD]
      simp [pandasColName, hne]
    have hmemF : c ∈ L.filter (fun c => c ≠ "DataLabel") :=
      List.mem_filter.mpr ⟨hmemL, by simpa using hnd⟩
    exact List.mem_map.mpr ⟨c, hmemF, rfl⟩

/-- Witness for C9 at a concrete fixture with a `DataLabel` column, an
unlabeled time column, both force channels, and one extra column. -/
theorem csv_normalizer_fixture_witness :
    (_load_csv ([["a"], ["b"], ["c"], ["d"], ["DataLabel", "", "FY[1]", "FZ[2]", "Extra"],
        ["DataUnit x", "s", "N", "N", "V"]]
      ++ [["#1", "0.001", "1.5", "2.5", "7"], ["#2", "0.002", "1.6", "2.6", "8"]])).rows.length
      = ([["#1", "0.001", "1.5", "2.5", "7"], ["#2", "0.002", "1.6", "2.6", "8"]]
          : List (List String)).length ∧
    "DataLabel" ∉ (_load_csv ([["a"], ["b"], ["c"], ["d"],
        ["DataLabel", "", "FY[1]", "FZ[2]", "Extra"], ["DataUnit x", "s", "N", "N", "V"]]
      ++ [["#1", "0.001", "1.5", "2.5", "7"], ["#2", "0.002", "1.6", "2.6", "8"]])).cols ∧
    (_load_csv ([["a"], ["b"], ["c"], ["d"], ["DataLabel", "", "FY[1]", "FZ[2]", "Extra"],
        ["DataUnit x", "s", "N", "N", "V"]]
      ++ [["#1", "0.001", "1.5", "2.5", "7"], ["#2", "0.002", "1.6", "2.6", "8"]])).cols
      = ((((List.range (["DataLabel", "", "FY[1]", "FZ[2]", "Extra"] : List String).length).map
          (fun k => pandasColName k ((["DataLabel", "", "FY[1]", "FZ[2]", "Extra"]
            : List String).getD k ""))).filter
          (fun c => c ≠ "DataLabel")).map renameCol) ∧
    (2 ≤ (["DataLabel", "", "FY[1]", "FZ[2]", "Extra"] : List String).length →
      (["DataLabel", "", "FY[1]", "FZ[2]", "Extra"] : List String).getD 1 "" = "" →
      "Time" ∈ (_load_csv ([["a"], ["b"], ["c"], ["d"],
          ["DataLabel", "", "FY[1]", "FZ[2]", "Extra"], ["DataUnit x", "s", "N", "N", "V"]]
        ++ [["#1", "0.001", "1.5", "2.5", "7"], ["#2", "0.002", "1.6", "2.6", "8"]])).cols) ∧
    (∀ c, c ∈ (["DataLabel", "", "FY[1]", "FZ[2]", "Extra"] : List String) → c ≠ "" →
      c ≠ "DataLabel" →
      renameCol c ∈ (_load_csv ([["a"], ["b"], ["c"], ["d"],
          ["DataLabel", "", "FY[1]", "FZ[2]", "Extra"], ["DataUnit x", "s", "N", "N", "V"]]
        ++ [["#1", "0.001", "1.5", "2.5", "7"], ["#2", "0.002", "1.6", "2.6", "8"]])).cols) :=
  csv_normalizer_fixture ["a"] ["b"] ["c"] ["d"] ["DataLabel", "", "FY[1]", "FZ[2]", "Extra"]
    ["DataUnit x", "s", "N", "N", "V"]
    [["#1", "0.001", "1.5", "2.5", "7"], ["#2", "0.002", "1.6", "2.6", "8"]] (by decide)

end Kenkyu
